import Mathlib

/-!
Verification of the session-orchestration core of the "Castle of Bugs"
Telegram bot (`adventure_debug_bot.py`).  The Python source is shallowly
embedded: every handler becomes a pure Lean function over an explicit state
(the in-memory `user_sessions` dict, the persisted JSON file, and the
per-user `user_processing_status` flag), JSON-decoded Python values become
the inductive `PyVal`, and Python exceptions become an explicit
`Option PyErr` / `Except PyErr` result.
-/

namespace CastleOfBugs

/-- Values produced by `json.load` / consumed by `json.dump`, as far as the
program manipulates them. -/
inductive PyVal where
  | pyInt (n : Int)
  | pyStr (s : String)
  | pyBool (b : Bool)
  | pyList (xs : List PyVal)
  | pyDict (kvs : List (String × PyVal))

/-- The Python exceptions the embedded code can raise: `AttributeError`
(attribute access on `None`, or `.items()` on a non-dict), `TypeError`
(bad keyword arguments to the `RoomSession` dataclass constructor, and the
model's stand-in for non-string content values), and `ValueError`
(`int(...)` on a non-numeric string). -/
inductive PyErr where
  | attributeError
  | typeError
  | valueError
deriving Repr, DecidableEq

/-- The `RoomSession` dataclass: the state of one user's game session. -/
structure RoomSession where
  user_id : Int
  room_number : Int := 1
  description : String := ""
  buggy_snippet : String := ""
  correct_snippet : String := ""
  attempts : Int := 0
  is_complete : Bool := false
deriving Repr, DecidableEq

/-- The in-memory `user_sessions` dict, as an insertion-ordered association
list with (in any state a Python dict can reach) pairwise distinct keys. -/
abbrev SessMap := List (Int × RoomSession)

/-- Python `dict.get(k)`. -/
def dictGet (m : SessMap) (k : Int) : Option RoomSession :=
  match m with
  | [] => none
  | (k', v) :: rest => if k' = k then some v else dictGet rest k

/-- Python `d[k] = v`: replace in place if the key exists, else append. -/
def dictSet (m : SessMap) (k : Int) (v : RoomSession) : SessMap :=
  match m with
  | [] => [(k, v)]
  | (k', v') :: rest => if k' = k then (k, v) :: rest else (k', v') :: dictSet rest k v

/-- Python `d.pop(k, None)`: remove the key if present. -/
def dictPop (m : SessMap) (k : Int) : SessMap :=
  match m with
  | [] => []
  | (k', v') :: rest => if k' = k then rest else (k', v') :: dictPop rest k

theorem dictGet_dictSet_self (m : SessMap) (k : Int) (v : RoomSession) :
    dictGet (dictSet m k v) k = some v := by
  induction m with
  | nil => simp [dictGet, dictSet]
  | cons p rest ih =>
    obtain ⟨k', v'⟩ := p
    by_cases h : k' = k <;> simp [dictGet, dictSet, h, ih]

theorem dictGet_dictSet_ne (m : SessMap) (k u : Int) (v : RoomSession) (h : u ≠ k) :
    dictGet (dictSet m k v) u = dictGet m u := by
  have hku : ¬ k = u := fun hh => h hh.symm
  induction m with
  | nil => simp [dictGet, dictSet, hku]
  | cons p rest ih =>
    obtain ⟨k', v'⟩ := p
    by_cases hk : k' = k
    · subst hk
      simp [dictGet, dictSet, hku]
    · simp only [dictSet, if_neg hk, dictGet]
      by_cases hu : k' = u <;> simp [hu, ih]

theorem dictGet_dictPop_ne (m : SessMap) (k u : Int) (h : u ≠ k) :
    dictGet (dictPop m k) u = dictGet m u := by
  have hku : ¬ k = u := fun hh => h hh.symm
  induction m with
  | nil => simp [dictGet, dictPop]
  | cons p rest ih =>
    obtain ⟨k', v'⟩ := p
    by_cases hk : k' = k
    · subst hk
      simp [dictGet, dictPop, hku]
    · simp only [dictPop, if_neg hk, dictGet]
      by_cases hu : k' = u <;> simp [hu, ih]

theorem dictGet_none_of_not_mem_keys (m : SessMap) (k : Int)
    (h : k ∉ m.map Prod.fst) : dictGet m k = none := by
  induction m with
  | nil => rfl
  | cons p rest ih =>
    obtain ⟨k', v'⟩ := p
    simp only [List.map_cons, List.mem_cons] at h
    push_neg at h
    simp only [dictGet, if_neg (fun hh : k' = k => h.1 hh.symm)]
    exact ih h.2

theorem dictGet_dictPop_self (m : SessMap) (k : Int)
    (hnd : (m.map Prod.fst).Nodup) :
    dictGet (dictPop m k) k = none := by
  induction m with
  | nil => rfl
  | cons p rest ih =>
    obtain ⟨k', v'⟩ := p
    simp only [List.map_cons, List.nodup_cons] at hnd
    by_cases hk : k' = k
    · subst hk
      simp only [dictPop, if_pos rfl]
      exact dictGet_none_of_not_mem_keys rest k' hnd.1
    · simp only [dictPop, if_neg hk, dictGet, if_neg hk]
      exact ih hnd.2

theorem dictGet_mem (m : SessMap) (k : Int) (v : RoomSession)
    (h : dictGet m k = some v) : (k, v) ∈ m := by
  induction m with
  | nil => simp [dictGet] at h
  | cons p rest ih =>
    obtain ⟨k', v'⟩ := p
    by_cases hk : k' = k
    · subst hk
      rw [dictGet, if_pos rfl] at h
      injection h with hv
      subst hv
      exact List.mem_cons_self _ _
    · rw [dictGet, if_neg hk] at h
      exact List.mem_cons_of_mem _ (ih h)

theorem keys_dictSet (m : SessMap) (k : Int) (v : RoomSession) :
    (dictSet m k v).map Prod.fst =
      if k ∈ m.map Prod.fst then m.map Prod.fst else m.map Prod.fst ++ [k] := by
  induction m with
  | nil => simp [dictSet]
  | cons p rest ih =>
    obtain ⟨k', v'⟩ := p
    by_cases hk : k' = k
    · subst hk
      simp [dictSet]
    · have hkk : ¬ k = k' := fun hh => hk hh.symm
      simp only [dictSet, if_neg hk, List.map_cons, List.mem_cons, ih]
      by_cases hmem : k ∈ rest.map Prod.fst <;> simp [hmem, hkk]

theorem nodupKeys_dictSet (m : SessMap) (k : Int) (v : RoomSession)
    (hnd : (m.map Prod.fst).Nodup) :
    ((dictSet m k v).map Prod.fst).Nodup := by
  rw [keys_dictSet]
  by_cases hmem : k ∈ m.map Prod.fst
  · simpa [hmem] using hnd
  · simp only [hmem, if_false]
    exact List.Nodup.append hnd (List.nodup_singleton k)
      (by simpa [List.disjoint_singleton] using hmem)

/-- The whitespace characters Python's `str.split()` (no separator
argument) splits on, restricted to the one-byte range plus the two
Latin-1 space characters; the game's code text only ever contains the
ASCII ones. -/
def isPyWhitespace (c : Char) : Bool :=
  [' ', '\t', '\n', '\r', '\x0b', '\x0c', '\x1c', '\x1d', '\x1e', '\x1f',
    '\x85', '\xa0'].contains c

/-- Python `code.split()`: maximal runs of non-whitespace characters, with
empty pieces dropped. -/
def pySplitWs : List Char → List (List Char)
  | [] => []
  | c :: cs =>
    if isPyWhitespace c then pySplitWs cs
    else
      match cs with
      | [] => [[c]]
      | d :: _ =>
        if isPyWhitespace d then [c] :: pySplitWs cs
        else
          match pySplitWs cs with
          | [] => [[c]]
          | g :: gs => (c :: g) :: gs

theorem pySplitWs_cons_ws (c : Char) (cs : List Char) (h : isPyWhitespace c = true) :
    pySplitWs (c :: cs) = pySplitWs cs := by
  rw [pySplitWs.eq_def]
  simp [h]

theorem pySplitWs_single (c : Char) (h : ¬ isPyWhitespace c = true) :
    pySplitWs [c] = [[c]] := by
  rw [pySplitWs.eq_def]
  simp [h]

theorem pySplitWs_cons_cons_ws (c d : Char) (ds : List Char)
    (hc : ¬ isPyWhitespace c = true) (hd : isPyWhitespace d = true) :
    pySplitWs (c :: d :: ds) = [c] :: pySplitWs (d :: ds) := by
  rw [pySplitWs.eq_def]
  simp [hc, hd]

theorem pySplitWs_cons_cons_nonws (c d : Char) (ds : List Char)
    (hc : ¬ isPyWhitespace c = true) (hd : ¬ isPyWhitespace d = true) :
    pySplitWs (c :: d :: ds) =
      match pySplitWs (d :: ds) with
      | [] => [[c]]
      | g :: gs => (c :: g) :: gs := by
  rw [pySplitWs.eq_def]
  simp [hc, hd]

theorem flatten_pySplitWs (cs : List Char) :
    (pySplitWs cs).flatten = cs.filter (fun c => !isPyWhitespace c) := by
  induction cs with
  | nil => rfl
  | cons c cs ih =>
    by_cases hc : isPyWhitespace c
    · rw [pySplitWs_cons_ws c cs hc, ih]
      simp [List.filter_cons, hc]
    · cases cs with
      | nil => simp [pySplitWs_single c hc, List.filter_cons, hc]
      | cons d ds =>
        by_cases hd : isPyWhitespace d
        · rw [pySplitWs_cons_cons_ws c d ds hc hd]
          simp [List.filter_cons, hc, ih]
        · rw [pySplitWs_cons_cons_nonws c d ds hc hd]
          rcases hsplit : pySplitWs (d :: ds) with - | ⟨g, gs⟩
          · rw [hsplit] at ih
            simp only [List.flatten_nil] at ih
            simp [List.filter_cons, hc, ← ih]
          · rw [hsplit] at ih
            simp only [List.flatten_cons] at ih
            simp [List.filter_cons, hc, ← ih]

/-- `normalize_code`: models `"".join(code.split())`, the comparison
normalization that removes every whitespace character. -/
def normalize_code (code : String) : String :=
  String.mk (pySplitWs code.data).flatten

theorem normalize_code_eq_filter (code : String) :
    normalize_code code = String.mk (code.data.filter (fun c => !isPyWhitespace c)) := by
  rw [normalize_code, flatten_pySplitWs]

/-- Decimal digits of a number, most significant first, with structural
fuel (any fuel above the value itself is enough, since `n / 10 < n`). -/
def natStrAuxFuel : Nat → Nat → List Char
  | 0, _ => []
  | fuel + 1, n =>
    if n < 10 then [Nat.digitChar n]
    else natStrAuxFuel fuel (n / 10) ++ [Nat.digitChar (n % 10)]

/-- Decimal digits of a number, most significant first; the digit list
Python's `str` produces for an `int` magnitude. -/
def natStrAux (n : Nat) : List Char :=
  natStrAuxFuel (n + 1) n

/-- Python `str` on an `int`: canonical decimal text with a leading minus
sign for negative values. -/
def pyStrOfInt (n : Int) : String :=
  if n < 0 then String.mk ('-' :: natStrAux n.natAbs)
  else String.mk (natStrAux n.natAbs)

/-- Value of one decimal digit character. -/
def digitVal (c : Char) : Option Nat :=
  if '0' ≤ c ∧ c ≤ '9' then some (c.toNat - '0'.toNat) else none

/-- Accumulating decimal parse; `none` as soon as a non-digit appears. -/
def parseDigitsAux (acc : Nat) : List Char → Option Nat
  | [] => some acc
  | c :: cs =>
    match digitVal c with
    | some d => parseDigitsAux (acc * 10 + d) cs
    | none => none

/-- Python `int(s)` on the character list of `s`, restricted to the
canonical forms `str` produces: an optional minus sign followed by at
least one decimal digit (Python also tolerates surrounding whitespace, a
plus sign and underscores, which the program never feeds it). -/
def pyIntOfChars : List Char → Except PyErr Int
  | [] => .error .valueError
  | c :: cs =>
    if c = '-' then
      if cs.isEmpty then .error .valueError
      else
        match parseDigitsAux 0 cs with
        | some n => .ok (-(n : Int))
        | none => .error .valueError
    else
      match parseDigitsAux 0 (c :: cs) with
      | some n => .ok ((n : Int))
      | none => .error .valueError

/-- Python `int(s)`: parse a decimal string, raising `ValueError` on
malformed input. -/
def pyIntOfString (s : String) : Except PyErr Int :=
  pyIntOfChars s.data

theorem digitVal_digitChar (d : Nat) (h : d < 10) :
    digitVal (Nat.digitChar d) = some d := by
  interval_cases d <;> decide

theorem digitChar_ne_dash (d : Nat) (h : d < 10) : Nat.digitChar d ≠ '-' := by
  interval_cases d <;> decide

theorem natStrAuxFuel_eq (fuel : Nat) :
    ∀ fuel' n : Nat, n < fuel → n < fuel' →
      natStrAuxFuel fuel n = natStrAuxFuel fuel' n := by
  induction fuel with
  | zero => intro fuel' n h; omega
  | succ fuel ih =>
    intro fuel' n h h'
    cases fuel' with
    | zero => omega
    | succ fuel' =>
      rw [natStrAuxFuel, natStrAuxFuel]
      by_cases h10 : n < 10
      · rw [if_pos h10, if_pos h10]
      · rw [if_neg h10, if_neg h10,
          ih fuel' (n / 10) (by omega) (by omega)]

theorem natStrAux_rec (n : Nat) :
    natStrAux n = if n < 10 then [Nat.digitChar n]
      else natStrAux (n / 10) ++ [Nat.digitChar (n % 10)] := by
  rw [natStrAux, natStrAuxFuel]
  by_cases h10 : n < 10
  · rw [if_pos h10, if_pos h10]
  · rw [if_neg h10, if_neg h10, natStrAux,
      natStrAuxFuel_eq n (n / 10 + 1) (n / 10) (by omega) (by omega)]

theorem natStrAux_ne_nil (n : Nat) : natStrAux n ≠ [] := by
  rw [natStrAux_rec]
  split
  · simp
  · simp

theorem dash_not_mem_natStrAux (n : Nat) : '-' ∉ natStrAux n := by
  induction n using Nat.strong_induction_on with
  | _ n ih =>
    rw [natStrAux_rec]
    split
    · simpa using (digitChar_ne_dash n (by omega)).symm
    · rename_i h
      intro hmem
      rcases List.mem_append.1 hmem with hmem | hmem
      · exact ih (n / 10) (Nat.div_lt_self (by omega) (by omega)) hmem
      · have := digitChar_ne_dash (n % 10) (Nat.mod_lt _ (by omega))
        simp only [List.mem_singleton] at hmem
        exact this hmem.symm

theorem parseDigitsAux_append (acc : Nat) (l₁ l₂ : List Char) :
    parseDigitsAux acc (l₁ ++ l₂) =
      match parseDigitsAux acc l₁ with
      | some m => parseDigitsAux m l₂
      | none => none := by
  induction l₁ generalizing acc with
  | nil => rfl
  | cons c cs ih =>
    simp only [List.cons_append, parseDigitsAux]
    cases digitVal c with
    | none => rfl
    | some d => exact ih _

theorem parse_natStrAux (n : Nat) :
    ∀ acc : Nat, parseDigitsAux acc (natStrAux n) =
      some (acc * 10 ^ (natStrAux n).length + n) := by
  induction n using Nat.strong_induction_on with
  | _ n ih =>
    intro acc
    rw [natStrAux_rec]
    split
    · rename_i h
      simp [parseDigitsAux, digitVal_digitChar n h]
    · rename_i h
      rw [parseDigitsAux_append, ih (n / 10) (Nat.div_lt_self (by omega) (by omega)) acc]
      simp only [parseDigitsAux, digitVal_digitChar (n % 10) (Nat.mod_lt _ (by omega)),
        List.length_append, List.length_singleton, pow_succ, Option.some.injEq]
      rw [← mul_assoc]
      generalize acc * 10 ^ (natStrAux (n / 10)).length = A
      omega

theorem natStrAux_isEmpty_false (n : Nat) : (natStrAux n).isEmpty = false := by
  rcases h : natStrAux n with - | ⟨c, cs⟩
  · exact absurd h (natStrAux_ne_nil n)
  · rfl

theorem pyIntOfString_pyStrOfInt (k : Int) :
    pyIntOfString (pyStrOfInt k) = .ok k := by
  by_cases hk : k < 0
  · have hstep : pyIntOfString (pyStrOfInt k) = pyIntOfChars ('-' :: natStrAux k.natAbs) := by
      rw [pyStrOfInt, if_pos hk]
      rfl
    rw [hstep]
    simp only [pyIntOfChars, if_pos rfl, if_true, natStrAux_isEmpty_false,
      parse_natStrAux k.natAbs 0, Nat.zero_mul, Nat.zero_add, Bool.false_eq_true, if_false,
      Except.ok.injEq]
    omega
  · have hstep : pyIntOfString (pyStrOfInt k) = pyIntOfChars (natStrAux k.natAbs) := by
      rw [pyStrOfInt, if_neg hk]
      rfl
    rw [hstep]
    rcases hsplit : natStrAux k.natAbs with - | ⟨c, cs⟩
    · exact absurd hsplit (natStrAux_ne_nil k.natAbs)
    · have hc : ¬ c = '-' := by
        intro hc
        apply dash_not_mem_natStrAux k.natAbs
        rw [hsplit, hc]
        exact List.mem_cons_self _ _
      simp only [pyIntOfChars, if_neg hc, ← hsplit, parse_natStrAux k.natAbs 0,
        Nat.zero_mul, Nat.zero_add, Except.ok.injEq]
      omega

/-- Assignment of one keyword argument to a `RoomSession` field, as the
generated dataclass `__init__` performs it.  An unknown keyword raises
`TypeError`.  Python dataclasses do not check value types at runtime; the
model accepts a value only when it matches the annotated field type, which
covers every payload the program's own serializer and generator contract
produce. -/
def setField (s : RoomSession) (k : String) (v : PyVal) : Except PyErr RoomSession :=
  if k = "user_id" then
    match v with
    | .pyInt n => .ok { s with user_id := n }
    | _ => .error .typeError
  else if k = "room_number" then
    match v with
    | .pyInt n => .ok { s with room_number := n }
    | _ => .error .typeError
  else if k = "description" then
    match v with
    | .pyStr t => .ok { s with description := t }
    | _ => .error .typeError
  else if k = "buggy_snippet" then
    match v with
    | .pyStr t => .ok { s with buggy_snippet := t }
    | _ => .error .typeError
  else if k = "correct_snippet" then
    match v with
    | .pyStr t => .ok { s with correct_snippet := t }
    | _ => .error .typeError
  else if k = "attempts" then
    match v with
    | .pyInt n => .ok { s with attempts := n }
    | _ => .error .typeError
  else if k = "is_complete" then
    match v with
    | .pyBool b => .ok { s with is_complete := b }
    | _ => .error .typeError
  else .error .typeError

/-- Apply a keyword-argument dict left to right on top of a base session. -/
def applyKwargs (s : RoomSession) : List (String × PyVal) → Except PyErr RoomSession
  | [] => .ok s
  | (k, v) :: rest =>
    match setField s k v with
    | .ok s' => applyKwargs s' rest
    | .error e => .error e

/-- Membership test `k in d` on a decoded JSON object. -/
def pyDictHas (d : List (String × PyVal)) (k : String) : Bool :=
  d.any (fun p => p.1 = k)

/-- Python `d[k]` on a decoded JSON object. -/
def pyDictGetVal (d : List (String × PyVal)) (k : String) : Option PyVal :=
  (d.find? (fun p => p.1 = k)).map (fun p => p.2)

/-- Models `RoomSession(user_id=user_id, **response)` in `enter_castle_task`:
the defaults with `user_id` bound, then the response's keys as keyword
arguments; a second `user_id` keyword would be a duplicate and raises
`TypeError`. -/
def mkRoomSessionKw (uid : Int) (kwargs : List (String × PyVal)) : Except PyErr RoomSession :=
  if pyDictHas kwargs "user_id" then .error .typeError
  else applyKwargs { user_id := uid } kwargs

/-- Models `RoomSession(**session_data)` in `load_sessions_from_file`: all
fields from keyword arguments, with `user_id` required (it has no default). -/
def mkRoomSessionFromDict (kwargs : List (String × PyVal)) : Except PyErr RoomSession :=
  if pyDictHas kwargs "user_id" then applyKwargs { user_id := 0 } kwargs
  else .error .typeError

/-- `dataclasses.asdict` on a `RoomSession`, fields in declaration order. -/
def sessionToDict (s : RoomSession) : List (String × PyVal) :=
  [("user_id", .pyInt s.user_id),
   ("room_number", .pyInt s.room_number),
   ("description", .pyStr s.description),
   ("buggy_snippet", .pyStr s.buggy_snippet),
   ("correct_snippet", .pyStr s.correct_snippet),
   ("attempts", .pyInt s.attempts),
   ("is_complete", .pyBool s.is_complete)]

/-- `save_sessions_to_file`: the JSON document `json.dump` writes —
`{str(uid): asdict(session) for uid, session in user_sessions.items()}`. -/
def save_sessions_to_file (sessions : SessMap) : PyVal :=
  .pyDict (sessions.map (fun p => (pyStrOfInt p.1, .pyDict (sessionToDict p.2))))

/-- The observable state of the durable `user_sessions.json` file when the
bot starts: absent, present but rejected by `json.load`, or decoded to a
JSON value. -/
inductive FileState where
  | missing
  | unparsable
  | parsed (v : PyVal)

/-- The loop body of `load_sessions_from_file`:
`user_sessions[int(uid)] = RoomSession(**session_data)` over the decoded
entries, accumulating into the (initially empty) global dict.  `int(uid)`
raises `ValueError` on a non-numeric key and the dataclass constructor
raises `TypeError` on a bad field dict; neither is caught by the caller. -/
def loadEntries : List (String × PyVal) → SessMap → Except PyErr SessMap
  | [], acc => .ok acc
  | (uid, sd) :: rest, acc =>
    match pyIntOfString uid with
    | .error e => .error e
    | .ok k =>
      match sd with
      | .pyDict kvs =>
        match mkRoomSessionFromDict kvs with
        | .error e => .error e
        | .ok s => loadEntries rest (dictSet acc k s)
      | _ => .error .typeError

/-- `load_sessions_from_file`: a missing file loads nothing and a
`json.JSONDecodeError` is caught (both leave the mapping empty), but a
decoded document that is not an object raises `AttributeError` at
`.items()`, and bad entries raise out of the loop — only
`FileNotFoundError` and `JSONDecodeError` are in the `except` clause. -/
def load_sessions_from_file : FileState → Except PyErr SessMap
  | .missing => .ok []
  | .unparsable => .ok []
  | .parsed (.pyDict kvs) => loadEntries kvs []
  | .parsed _ => .error .attributeError

theorem applyKwargs_sessionToDict (base s : RoomSession) :
    applyKwargs base (sessionToDict s) = .ok s := by
  simp only [sessionToDict, applyKwargs, setField]
  rfl

theorem mkRoomSessionFromDict_sessionToDict (s : RoomSession) :
    mkRoomSessionFromDict (sessionToDict s) = .ok s := by
  rw [mkRoomSessionFromDict, if_pos (by rfl)]
  exact applyKwargs_sessionToDict _ s

theorem dictSet_eq_append (m : SessMap) (k : Int) (v : RoomSession)
    (h : k ∉ m.map Prod.fst) : dictSet m k v = m ++ [(k, v)] := by
  induction m with
  | nil => rfl
  | cons p rest ih =>
    obtain ⟨k', v'⟩ := p
    simp only [List.map_cons, List.mem_cons] at h
    push_neg at h
    simp only [dictSet, if_neg (fun hh : k' = k => h.1 hh.symm), List.cons_append,
      List.cons.injEq, true_and]
    exact ih h.2

theorem loadEntries_saved (m acc : SessMap)
    (hnd : (m.map Prod.fst).Nodup)
    (hdisj : ∀ p ∈ m, p.1 ∉ acc.map Prod.fst) :
    loadEntries (m.map (fun p => (pyStrOfInt p.1, .pyDict (sessionToDict p.2)))) acc =
      .ok (acc ++ m) := by
  induction m generalizing acc with
  | nil => simp [loadEntries]
  | cons p rest ih =>
    obtain ⟨k, s⟩ := p
    simp only [List.map_cons, List.nodup_cons] at hnd
    simp only [List.map_cons, loadEntries, pyIntOfString_pyStrOfInt,
      mkRoomSessionFromDict_sessionToDict]
    have hknotin : k ∉ acc.map Prod.fst := hdisj (k, s) (List.mem_cons_self _ _)
    rw [dictSet_eq_append acc k s hknotin]
    have hdisj' : ∀ q ∈ rest, q.1 ∉ (acc ++ [(k, s)]).map Prod.fst := by
      intro q hq
      simp only [List.map_append, List.mem_append, List.map_cons, List.map_nil,
        List.mem_singleton]
      push_neg
      refine ⟨hdisj q (List.mem_cons_of_mem _ hq), ?_⟩
      intro hq1
      apply hnd.1
      rw [← hq1]
      exact List.mem_map.2 ⟨q, hq, rfl⟩
    rw [ih (acc ++ [(k, s)]) hnd.2 hdisj']
    simp

/-- The distinguishable outbound messages of the handlers (the Persian
message texts of the source, abstracted to their meaning; `roomPresented`
carries the data `format_room_message` interpolates). -/
inductive Reply where
  | stillProcessing
  | returnedToCastle
  | roomPresented (room : Int) (description snippet : String)
  | generationFailedGate
  | hintGiven (t : String)
  | hintUnavailable
  | hintOutside
  | leftCastle
  | outsideCastle
  | progressReport (room attempts : Int)
  | echoUnknown
  | victory
  | roomComplete (room : Int)
  | fatalCollapse
  | incorrect
deriving Repr, DecidableEq

/-- The state-machine operations of the spec, used to record which
operation a router invocation performed. -/
inductive OpKind where
  | startSession
  | requestHint
  | submitSolution
  | terminate
  | inspect
deriving Repr, DecidableEq

/-- Result of one handler task: the dict and file after it ran, the
messages it sent, the exception it raised (if any — mutations made before
the raise are kept, as in Python), and whether it called the Groq API. -/
structure TaskResult where
  sessions : SessMap
  store : SessMap
  replies : List Reply
  raised : Option PyErr
  gatewayCalled : Bool
deriving Repr, DecidableEq

/-- `cleanup_session`: pop the user's session and persist.  Returns the new
in-memory dict and the new file contents (which `save_sessions_to_file`
makes identical). -/
def cleanup_session (user_id : Int) (sessions : SessMap) : SessMap × SessMap :=
  let sessions' := dictPop sessions user_id
  (sessions', sessions')

/-- The validity test `isinstance(response, dict) and all(k in response for
k in ("description", "buggy_snippet", "correct_snippet"))` on an API
response (`none` models both a failed call and a non-dict result). -/
def hasAllRoomKeys (d : List (String × PyVal)) : Bool :=
  pyDictHas d "description" && pyDictHas d "buggy_snippet" && pyDictHas d "correct_snippet"

/-- Validity of the full optional response. -/
def genValid : Option (List (String × PyVal)) → Bool
  | some d => hasAllRoomKeys d
  | none => false

/-- Extraction stand-in for the dataclass-field assignments
`session.description = response["description"]` etc.; the model restricts
to string-valued content fields (the only shape the generator contract and
the persisted format produce). -/
def pyStrVal : Option PyVal → Except PyErr String
  | some (.pyStr s) => .ok s
  | _ => .error .typeError

/-- The (description, buggy_snippet, correct_snippet) triple of a valid
response dict. -/
def roomContentOf (d : List (String × PyVal)) : Except PyErr (String × String × String) :=
  match pyStrVal (pyDictGetVal d "description"), pyStrVal (pyDictGetVal d "buggy_snippet"),
      pyStrVal (pyDictGetVal d "correct_snippet") with
  | .ok de, .ok bu, .ok co => .ok (de, bu, co)
  | .error e, _, _ => .error e
  | _, .error e, _ => .error e
  | _, _, .error e => .error e

/-- `enter_castle_task`: call the generator for room 1; on a valid response
build `RoomSession(user_id=user_id, **response)`, store and persist it and
present the room; otherwise apologise that the gate is locked. -/
def enter_castle_task (user_id : Int) (genResp : Option (List (String × PyVal)))
    (sessions store : SessMap) : TaskResult :=
  match genResp with
  | some d =>
    if hasAllRoomKeys d then
      match mkRoomSessionKw user_id d with
      | .ok session =>
        let sessions' := dictSet sessions user_id session
        { sessions := sessions', store := sessions',
          replies := [.roomPresented session.room_number session.description session.buggy_snippet],
          raised := none, gatewayCalled := true }
      | .error e =>
        { sessions := sessions, store := store, replies := [],
          raised := some e, gatewayCalled := true }
    else
      { sessions := sessions, store := store, replies := [.generationFailedGate],
        raised := none, gatewayCalled := true }
  | none =>
    { sessions := sessions, store := store, replies := [.generationFailedGate],
      raised := none, gatewayCalled := true }

/-- `hint_task`: the hint prompt interpolates `session.buggy_snippet` and
`session.correct_snippet` before the API call, so a missing session raises
`AttributeError` without calling the API; a falsy (absent or empty) hint
text yields the "ghosts are silent" reply; no session state changes. -/
def hint_task (user_id : Int) (hintResp : Option String)
    (sessions store : SessMap) : TaskResult :=
  match dictGet sessions user_id with
  | none =>
    { sessions := sessions, store := store, replies := [],
      raised := some .attributeError, gatewayCalled := false }
  | some _ =>
    match hintResp with
    | some t =>
      if t = "" then
        { sessions := sessions, store := store, replies := [.hintUnavailable],
          raised := none, gatewayCalled := true }
      else
        { sessions := sessions, store := store, replies := [.hintGiven t],
          raised := none, gatewayCalled := true }
    | none =>
      { sessions := sessions, store := store, replies := [.hintUnavailable],
        raised := none, gatewayCalled := true }

/-- `code_submission_task`: normalize the submission and the stored
solution and compare.  On a match, bump the room (mutating the shared
session object in place), reset attempts, then either declare victory and
delete the session (`room_number > 5`), or call the generator for the next
room — overwriting the content triple and persisting on success, deleting
the session and declaring collapse on an invalid response.  On a mismatch,
bump `attempts` and persist. -/
def code_submission_task (user_id : Int) (text : String)
    (genResp : Option (List (String × PyVal))) (sessions store : SessMap) : TaskResult :=
  match dictGet sessions user_id with
  | none =>
    { sessions := sessions, store := store, replies := [],
      raised := some .attributeError, gatewayCalled := false }
  | some session =>
    let user_code := normalize_code text
    let correct_code := normalize_code session.correct_snippet
    if user_code = correct_code then
      let session1 := { session with room_number := session.room_number + 1, attempts := 0 }
      let sessions1 := dictSet sessions user_id session1
      if session1.room_number > 5 then
        let cleaned := cleanup_session user_id sessions1
        { sessions := cleaned.1, store := cleaned.2, replies := [.victory],
          raised := none, gatewayCalled := false }
      else
        match genResp with
        | some d =>
          if hasAllRoomKeys d then
            match roomContentOf d with
            | .ok content =>
              let session2 := { session1 with
                description := content.1
                buggy_snippet := content.2.1
                correct_snippet := content.2.2 }
              let sessions2 := dictSet sessions1 user_id session2
              { sessions := sessions2, store := sessions2,
                replies := [.roomComplete session1.room_number,
                  .roomPresented session2.room_number session2.description session2.buggy_snippet],
                raised := none, gatewayCalled := true }
            | .error e =>
              { sessions := sessions1, store := store,
                replies := [.roomComplete session1.room_number],
                raised := some e, gatewayCalled := true }
          else
            let cleaned := cleanup_session user_id sessions1
            { sessions := cleaned.1, store := cleaned.2,
              replies := [.roomComplete session1.room_number, .fatalCollapse],
              raised := none, gatewayCalled := true }
        | none =>
          let cleaned := cleanup_session user_id sessions1
          { sessions := cleaned.1, store := cleaned.2,
            replies := [.roomComplete session1.room_number, .fatalCollapse],
            raised := none, gatewayCalled := true }
    else
      let session1 := { session with attempts := session.attempts + 1 }
      let sessions1 := dictSet sessions user_id session1
      { sessions := sessions1, store := sessions1, replies := [.incorrect],
        raised := none, gatewayCalled := false }

/-- Result of one `message_router` invocation.  `busy` is the user's
`user_processing_status` flag after the invocation returns; `raised` is an
exception that escaped to the framework's error handler (the `finally`
block has already cleared the flag when it propagates); `ops` records each
state-machine operation performed, paired with the value the busy flag had
while it ran. -/
structure RouterOut where
  sessions : SessMap
  store : SessMap
  replies : List Reply
  busy : Bool
  raised : Option PyErr
  ops : List (OpKind × Bool)
  gatewayCalled : Bool
deriving Repr, DecidableEq

/-- Wraps `user_processing_status[user_id] = True; try: await task;
finally: user_processing_status[user_id] = False`. -/
def runGuarded (kind : OpKind) (r : TaskResult) : RouterOut :=
  { sessions := r.sessions, store := r.store, replies := r.replies, busy := false,
    raised := r.raised, ops := [(kind, true)], gatewayCalled := r.gatewayCalled }

/-- `message_router`: the concurrency gate and dispatch for one inbound
text message.  `busy` is the user's current `user_processing_status`
entry, `genResp` and `hintResp` are the outcomes the Groq API would return
for a room-generation and a hint call made during this invocation. -/
def message_router (user_id : Int) (text : String)
    (genResp : Option (List (String × PyVal))) (hintResp : Option String)
    (busy : Bool) (sessions store : SessMap) : RouterOut :=
  if busy then
    { sessions := sessions, store := store, replies := [.stillProcessing], busy := true,
      raised := none, ops := [], gatewayCalled := false }
  else
    let session := dictGet sessions user_id
    if text = "🎮 ورود به قلعه" then
      match session with
      | some s =>
        if s.is_complete then
          runGuarded .startSession (enter_castle_task user_id genResp sessions store)
        else
          { sessions := sessions, store := store,
            replies := [.returnedToCastle, .roomPresented s.room_number s.description s.buggy_snippet],
            busy := false, raised := none, ops := [], gatewayCalled := false }
      | none => runGuarded .startSession (enter_castle_task user_id genResp sessions store)
    else if text = "💡 دریافت راهنمایی" then
      match session with
      | some s =>
        if s.is_complete then
          { sessions := sessions, store := store, replies := [.hintOutside], busy := false,
            raised := none, ops := [], gatewayCalled := false }
        else
          runGuarded .requestHint (hint_task user_id hintResp sessions store)
      | none =>
        { sessions := sessions, store := store, replies := [.hintOutside], busy := false,
          raised := none, ops := [], gatewayCalled := false }
    else if text = "🚪 ترک بازی" then
      match session with
      | some _ =>
        let cleaned := cleanup_session user_id sessions
        { sessions := cleaned.1, store := cleaned.2, replies := [.leftCastle], busy := false,
          raised := none, ops := [(.terminate, false)], gatewayCalled := false }
      | none =>
        { sessions := sessions, store := store, replies := [.outsideCastle], busy := false,
          raised := none, ops := [], gatewayCalled := false }
    else if text = "📊 پیشرفت من" then
      match session with
      | some s =>
        if s.is_complete then
          { sessions := sessions, store := store, replies := [.outsideCastle], busy := false,
            raised := none, ops := [], gatewayCalled := false }
        else
          { sessions := sessions, store := store,
            replies := [.progressReport s.room_number s.attempts], busy := false,
            raised := none, ops := [(.inspect, false)], gatewayCalled := false }
      | none =>
        { sessions := sessions, store := store, replies := [.outsideCastle], busy := false,
          raised := none, ops := [], gatewayCalled := false }
    else
      match session with
      | some s =>
        if s.is_complete then
          { sessions := sessions, store := store, replies := [.echoUnknown], busy := false,
            raised := none, ops := [], gatewayCalled := false }
        else
          runGuarded .submitSolution (code_submission_task user_id text genResp sessions store)
      | none =>
        { sessions := sessions, store := store, replies := [.echoUnknown], busy := false,
          raised := none, ops := [], gatewayCalled := false }

theorem setField_error (s : RoomSession) (k : String) (v : PyVal) (e : PyErr)
    (h : setField s k v = .error e) : e = .typeError := by
  cases v <;> simp only [setField] at h <;> split_ifs at h <;>
    first
      | (injection h with he; exact he.symm)
      | exact Except.noConfusion h

theorem applyKwargs_error (s : RoomSession) (d : List (String × PyVal)) (e : PyErr)
    (h : applyKwargs s d = .error e) : e = .typeError := by
  induction d generalizing s with
  | nil => simp [applyKwargs] at h
  | cons kv rest ih =>
    obtain ⟨k, v⟩ := kv
    rw [applyKwargs] at h
    rcases hset : setField s k v with e' | s'
    · simp only [hset] at h
      injection h with he
      subst he
      exact setField_error s k v e' hset
    · simp only [hset] at h
      exact ih s' h

theorem mkRoomSessionKw_error (uid : Int) (d : List (String × PyVal)) (e : PyErr)
    (h : mkRoomSessionKw uid d = .error e) : e = .typeError := by
  rw [mkRoomSessionKw] at h
  split_ifs at h
  · injection h with he
    exact he.symm
  · exact applyKwargs_error _ d e h

theorem pyStrVal_error (v : Option PyVal) (e : PyErr)
    (h : pyStrVal v = .error e) : e = .typeError := by
  rcases v with - | v
  · injection h with he
    exact he.symm
  · cases v <;> simp_all [pyStrVal]

theorem roomContentOf_error (d : List (String × PyVal)) (e : PyErr)
    (h : roomContentOf d = .error e) : e = .typeError := by
  rw [roomContentOf] at h
  rcases h1 : pyStrVal (pyDictGetVal d "description") with e1 | de <;>
    rcases h2 : pyStrVal (pyDictGetVal d "buggy_snippet") with e2 | bu <;>
    rcases h3 : pyStrVal (pyDictGetVal d "correct_snippet") with e3 | co <;>
    simp only [h1, h2, h3] at h <;>
    first
      | exact Except.noConfusion h
      | (injection h with he; subst he;
         first
           | exact pyStrVal_error _ _ h1
           | exact pyStrVal_error _ _ h2
           | exact pyStrVal_error _ _ h3)

theorem hint_task_sessions (user_id : Int) (hintResp : Option String)
    (sessions store : SessMap) :
    (hint_task user_id hintResp sessions store).sessions = sessions ∧
    (hint_task user_id hintResp sessions store).store = store := by
  cases hget : dictGet sessions user_id <;> simp only [hint_task.eq_def, hget] <;>
    try (refine ⟨?_, ?_⟩ <;> first | rfl | trivial)
  rcases hintResp with - | t
  · refine ⟨?_, ?_⟩ <;> first | rfl | trivial
  · by_cases ht : t = "" <;> simp [ht]

theorem dictGet_dictSet_ite (m : SessMap) (k u : Int) (v : RoomSession) :
    dictGet (dictSet m k v) u = if u = k then some v else dictGet m u := by
  by_cases hu : u = k
  · subst hu
    simp [dictGet_dictSet_self]
  · simp [hu, dictGet_dictSet_ne m k u v hu]

theorem dictGet_dictPop_ite (m : SessMap) (k u : Int) (hnd : (m.map Prod.fst).Nodup) :
    dictGet (dictPop m k) u = if u = k then none else dictGet m u := by
  by_cases hu : u = k
  · subst hu
    simp [dictGet_dictPop_self m u hnd]
  · simp [hu, dictGet_dictPop_ne m k u hu]

theorem enter_castle_dictGet_ne (user_id : Int) (genResp : Option (List (String × PyVal)))
    (sessions store : SessMap) (u : Int) (hu : u ≠ user_id) :
    dictGet (enter_castle_task user_id genResp sessions store).sessions u =
      dictGet sessions u := by
  rcases genResp with - | d
  · rfl
  · simp only [enter_castle_task.eq_def]
    by_cases hkeys : hasAllRoomKeys d
    · simp only [if_pos hkeys]
      rcases hmk : mkRoomSessionKw user_id d with e | sess
      · simp only [hmk]
      · simp only [hmk]
        exact dictGet_dictSet_ne sessions user_id u sess hu
    · simp only [if_neg hkeys]

theorem enter_castle_no_attributeError (user_id : Int)
    (genResp : Option (List (String × PyVal))) (sessions store : SessMap)
    (h : (enter_castle_task user_id genResp sessions store).raised = some PyErr.attributeError) :
    False := by
  rcases genResp with - | d
  · simp [enter_castle_task.eq_def] at h
  · simp only [enter_castle_task.eq_def] at h
    by_cases hkeys : hasAllRoomKeys d
    · simp only [if_pos hkeys] at h
      rcases hmk : mkRoomSessionKw user_id d with e | sess
      · simp only [hmk] at h
        injection h with he
        have hte := mkRoomSessionKw_error user_id d e hmk
        rw [hte] at he
        exact PyErr.noConfusion he
      · simp only [hmk] at h
        exact Option.noConfusion h
    · simp only [if_neg hkeys] at h
      exact Option.noConfusion h

theorem submit_dictGet_after (user_id : Int) (text : String)
    (genResp : Option (List (String × PyVal))) (sessions store : SessMap) (u : Int)
    (hnd : (sessions.map Prod.fst).Nodup) :
    dictGet (code_submission_task user_id text genResp sessions store).sessions u =
      if u = user_id then
        match dictGet sessions user_id with
        | none => none
        | some s =>
          if normalize_code text = normalize_code s.correct_snippet then
            if s.room_number + 1 > 5 then none
            else
              match genResp with
              | some d =>
                if hasAllRoomKeys d then
                  match roomContentOf d with
                  | .ok content =>
                    some { s with
                      room_number := s.room_number + 1
                      attempts := 0
                      description := content.1
                      buggy_snippet := content.2.1
                      correct_snippet := content.2.2 }
                  | .error _ =>
                    some { s with
                      room_number := s.room_number + 1
                      attempts := 0 }
                else none
              | none => none
          else some { s with attempts := s.attempts + 1 }
      else dictGet sessions u := by
  have hnd1 : ∀ v, ((dictSet sessions user_id v).map Prod.fst).Nodup :=
    fun v => nodupKeys_dictSet sessions user_id v hnd
  cases hget : dictGet sessions user_id with
  | none =>
    simp only [code_submission_task.eq_def, hget]
    by_cases hu : u = user_id
    · subst hu
      simp [hget]
    · simp [hu]
  | some s =>
    simp only [code_submission_task.eq_def, hget, cleanup_session]
    by_cases hcmp : normalize_code text = normalize_code s.correct_snippet
    · simp only [if_pos hcmp]
      by_cases hvic : s.room_number + 1 > 5
      · simp only [if_pos hvic, dictGet_dictPop_ite _ _ _ (hnd1 _), dictGet_dictSet_ite]
        try (by_cases hu : u = user_id <;> simp [hu])
      · simp only [if_neg hvic]
        rcases genResp with - | d
        · simp only [dictGet_dictPop_ite _ _ _ (hnd1 _), dictGet_dictSet_ite]
          try (by_cases hu : u = user_id <;> simp [hu])
        · by_cases hkeys : hasAllRoomKeys d
          · simp only [if_pos hkeys]
            rcases hrc : roomContentOf d with e | content
            · simp only [hrc, dictGet_dictSet_ite]
              try (by_cases hu : u = user_id <;> simp [hu])
            · simp only [hrc, dictGet_dictSet_ite]
              try (by_cases hu : u = user_id <;> simp [hu])
          · simp only [if_neg hkeys, dictGet_dictPop_ite _ _ _ (hnd1 _), dictGet_dictSet_ite]
            try (by_cases hu : u = user_id <;> simp [hu])
    · simp only [if_neg hcmp, dictGet_dictSet_ite]
      try (by_cases hu : u = user_id <;> simp [hu])

/-- A concrete session used by the witness instantiations. -/
def sampleSession : RoomSession :=
  { user_id := 42, room_number := 2, description := "d", buggy_snippet := "b",
    correct_snippet := "x=1" }

/-- C1: `code_submission_task` decides correctness by comparing the
whitespace-stripped submission against the whitespace-stripped stored
solution for exact (case-sensitive) equality — the incorrect outcome is
reported precisely when the two normalized strings differ, the
normalization removes exactly the whitespace characters, and in particular
the submission "x = 1\n" matches a stored solution "x=1". -/
theorem C1_submission_decided_by_normalized_equality :
    (∀ (user_id : Int) (text : String) (genResp : Option (List (String × PyVal)))
        (sessions store : SessMap) (s : RoomSession),
      dictGet sessions user_id = some s →
      (Reply.incorrect ∈ (code_submission_task user_id text genResp sessions store).replies ↔
        normalize_code text ≠ normalize_code s.correct_snippet)) ∧
    (∀ code : String,
      normalize_code code = String.mk (code.data.filter (fun c => !isPyWhitespace c))) ∧
    normalize_code "x = 1\n" = normalize_code "x=1" := by
  refine ⟨?_, normalize_code_eq_filter, rfl⟩
  intro user_id text genResp sessions store s hget
  simp only [code_submission_task.eq_def, hget, cleanup_session]
  by_cases hcmp : normalize_code text = normalize_code s.correct_snippet
  · simp only [if_pos hcmp]
    constructor
    · intro hmem
      exfalso
      revert hmem
      by_cases hvic : s.room_number + 1 > 5
      · simp [hvic]
      · simp only [if_neg hvic]
        rcases genResp with - | d
        · simp
        · by_cases hkeys : hasAllRoomKeys d
          · simp only [if_pos hkeys]
            rcases hrc : roomContentOf d with e | content <;> simp [hrc]
          · simp [hkeys]
    · intro hne
      exact absurd hcmp hne
  · simp [if_neg hcmp, hcmp]

/-- C1 witness: the general equivalence instantiated at user 42 submitting
"x = 1\n" against the stored solution "x=1". -/
theorem C1_witness :
    Reply.incorrect ∈ (code_submission_task 42 "x = 1\n" none [(42, sampleSession)] []).replies ↔
      normalize_code "x = 1\n" ≠ normalize_code sampleSession.correct_snippet :=
  C1_submission_decided_by_normalized_equality.1 42 "x = 1\n" none
    [(42, sampleSession)] [] sampleSession rfl

/-- C6: an incorrect submission increments the failed-attempt count by
exactly one, persists the updated dict, reports the incorrect outcome, and
leaves the stage index and the stored content strings untouched. -/
theorem C6_incorrect_submission_increments_attempts_only :
    ∀ (user_id : Int) (text : String) (genResp : Option (List (String × PyVal)))
      (sessions store : SessMap) (s : RoomSession),
      dictGet sessions user_id = some s →
      normalize_code text ≠ normalize_code s.correct_snippet →
      ∃ s' : RoomSession,
        (code_submission_task user_id text genResp sessions store).sessions =
          dictSet sessions user_id s' ∧
        (code_submission_task user_id text genResp sessions store).store =
          (code_submission_task user_id text genResp sessions store).sessions ∧
        (code_submission_task user_id text genResp sessions store).replies = [Reply.incorrect] ∧
        (code_submission_task user_id text genResp sessions store).raised = none ∧
        dictGet (code_submission_task user_id text genResp sessions store).sessions user_id =
          some s' ∧
        s'.attempts = s.attempts + 1 ∧
        s'.room_number = s.room_number ∧
        s'.description = s.description ∧
        s'.buggy_snippet = s.buggy_snippet ∧
        s'.correct_snippet = s.correct_snippet := by
  intro user_id text genResp sessions store s hget hne
  refine ⟨{ s with attempts := s.attempts + 1 }, ?_, ?_, ?_, ?_, ?_, rfl, rfl, rfl, rfl, rfl⟩ <;>
    simp [code_submission_task.eq_def, hget, hne, dictGet_dictSet_self]

/-- C6 witness: the frame property instantiated at a wrong submission
"WRONG" for user 42 on stage 2. -/
theorem C6_witness :
    ∃ s' : RoomSession,
      (code_submission_task 42 "WRONG" none [(42, sampleSession)] []).sessions =
        dictSet [(42, sampleSession)] 42 s' ∧
      (code_submission_task 42 "WRONG" none [(42, sampleSession)] []).store =
        (code_submission_task 42 "WRONG" none [(42, sampleSession)] []).sessions ∧
      (code_submission_task 42 "WRONG" none [(42, sampleSession)] []).replies =
        [Reply.incorrect] ∧
      (code_submission_task 42 "WRONG" none [(42, sampleSession)] []).raised = none ∧
      dictGet (code_submission_task 42 "WRONG" none [(42, sampleSession)] []).sessions 42 =
        some s' ∧
      s'.attempts = sampleSession.attempts + 1 ∧
      s'.room_number = sampleSession.room_number ∧
      s'.description = sampleSession.description ∧
      s'.buggy_snippet = sampleSession.buggy_snippet ∧
      s'.correct_snippet = sampleSession.correct_snippet :=
  C6_incorrect_submission_increments_attempts_only 42 "WRONG" none
    [(42, sampleSession)] [] sampleSession rfl (by decide)

/-- C3: a correct submission below the final stage whose generation call
fails or returns an invalid structure deletes the session from both the
in-memory dict and the persisted store, reports the fatal collapse, and
raises nothing. -/
theorem C3_advance_generation_failure_deletes_session :
    ∀ (user_id : Int) (text : String) (genResp : Option (List (String × PyVal)))
      (sessions store : SessMap) (s : RoomSession),
      (sessions.map Prod.fst).Nodup →
      dictGet sessions user_id = some s →
      normalize_code text = normalize_code s.correct_snippet →
      s.room_number < 5 →
      genValid genResp = false →
      dictGet (code_submission_task user_id text genResp sessions store).sessions user_id =
        none ∧
      dictGet (code_submission_task user_id text genResp sessions store).store user_id =
        none ∧
      Reply.fatalCollapse ∈ (code_submission_task user_id text genResp sessions store).replies ∧
      (code_submission_task user_id text genResp sessions store).raised = none := by
  intro user_id text genResp sessions store s hnd hget hcmp h5 hfail
  have hvic : ¬ (s.room_number + 1 > 5) := by omega
  have hpop : ∀ v : RoomSession,
      dictGet (dictPop (dictSet sessions user_id v) user_id) user_id = none :=
    fun v => dictGet_dictPop_self _ _ (nodupKeys_dictSet sessions user_id v hnd)
  rcases genResp with - | d
  · refine ⟨?_, ?_, ?_, ?_⟩ <;>
      simp [code_submission_task.eq_def, hget, hcmp, hvic, cleanup_session, hpop]
  · have hkeys : hasAllRoomKeys d = false := by simpa [genValid] using hfail
    refine ⟨?_, ?_, ?_, ?_⟩ <;>
      simp [code_submission_task.eq_def, hget, hcmp, hvic, hkeys, cleanup_session, hpop]

/-- C3 witness: the deletion-on-failure property instantiated at a correct
submission on stage 2 with the generator returning nothing. -/
theorem C3_witness :
    dictGet (code_submission_task 42 "x = 1\n" none [(42, sampleSession)] []).sessions 42 =
      none ∧
    dictGet (code_submission_task 42 "x = 1\n" none [(42, sampleSession)] []).store 42 = none ∧
    Reply.fatalCollapse ∈ (code_submission_task 42 "x = 1\n" none [(42, sampleSession)] []).replies ∧
    (code_submission_task 42 "x = 1\n" none [(42, sampleSession)] []).raised = none :=
  C3_advance_generation_failure_deletes_session 42 "x = 1\n" none
    [(42, sampleSession)] [] sampleSession (by decide) rfl rfl (by decide) rfl

/-- C4: a correct submission on the configured final stage (5) reports
victory, deletes the session from the dict and the store, makes no
generation call, and a subsequent progress inspection for that user
reports being outside the castle (no active session). -/
theorem C4_final_stage_victory_deletes_session :
    ∀ (user_id : Int) (text : String) (genResp : Option (List (String × PyVal)))
      (hintResp : Option String) (sessions store : SessMap) (s : RoomSession),
      (sessions.map Prod.fst).Nodup →
      dictGet sessions user_id = some s →
      normalize_code text = normalize_code s.correct_snippet →
      s.room_number = 5 →
      Reply.victory ∈ (code_submission_task user_id text genResp sessions store).replies ∧
      dictGet (code_submission_task user_id text genResp sessions store).sessions user_id =
        none ∧
      dictGet (code_submission_task user_id text genResp sessions store).store user_id =
        none ∧
      (code_submission_task user_id text genResp sessions store).gatewayCalled = false ∧
      (message_router user_id "📊 پیشرفت من" genResp hintResp false
        (code_submission_task user_id text genResp sessions store).sessions
        (code_submission_task user_id text genResp sessions store).store).replies =
          [Reply.outsideCastle] := by
  intro user_id text genResp hintResp sessions store s hnd hget hcmp h5
  have hvic : s.room_number + 1 > 5 := by omega
  have hpop : ∀ v : RoomSession,
      dictGet (dictPop (dictSet sessions user_id v) user_id) user_id = none :=
    fun v => dictGet_dictPop_self _ _ (nodupKeys_dictSet sessions user_id v hnd)
  have hafter : dictGet (code_submission_task user_id text genResp sessions store).sessions
      user_id = none := by
    simp [code_submission_task.eq_def, hget, hcmp, hvic, cleanup_session, hpop]
  refine ⟨?_, hafter, ?_, ?_, ?_⟩
  · simp [code_submission_task.eq_def, hget, hcmp, hvic, cleanup_session]
  · simp [code_submission_task.eq_def, hget, hcmp, hvic, cleanup_session, hpop]
  · simp [code_submission_task.eq_def, hget, hcmp, hvic, cleanup_session]
  · simp [message_router, hafter]

/-- C4 witness: victory and deletion instantiated at user 42 on stage 5
submitting the stored solution. -/
theorem C4_witness :
    Reply.victory ∈ (code_submission_task 42 "x=1" none
      [(42, { sampleSession with room_number := 5 })] []).replies ∧
    dictGet (code_submission_task 42 "x=1" none
      [(42, { sampleSession with room_number := 5 })] []).sessions 42 = none ∧
    dictGet (code_submission_task 42 "x=1" none
      [(42, { sampleSession with room_number := 5 })] []).store 42 = none ∧
    (code_submission_task 42 "x=1" none
      [(42, { sampleSession with room_number := 5 })] []).gatewayCalled = false ∧
    (message_router 42 "📊 پیشرفت من" none none false
      (code_submission_task 42 "x=1" none
        [(42, { sampleSession with room_number := 5 })] []).sessions
      (code_submission_task 42 "x=1" none
        [(42, { sampleSession with room_number := 5 })] []).store).replies =
        [Reply.outsideCastle] :=
  C4_final_stage_victory_deletes_session 42 "x=1" none none
    [(42, { sampleSession with room_number := 5 })] []
    { sampleSession with room_number := 5 } (by decide) rfl rfl rfl

/-- C7: saving any session mapping with (as in a Python dict) pairwise
distinct user ids and loading the resulting JSON document back reproduces
the mapping field for field. -/
theorem C7_save_load_roundtrip :
    ∀ sessions : SessMap, (sessions.map Prod.fst).Nodup →
      load_sessions_from_file (.parsed (save_sessions_to_file sessions)) = .ok sessions := by
  intro sessions hnd
  simp only [save_sessions_to_file, load_sessions_from_file]
  rw [loadEntries_saved sessions [] hnd (by simp)]
  simp

/-- C7 witness: the round trip instantiated at a two-user mapping with a
negative user id. -/
theorem C7_witness :
    ([(42, sampleSession), (-3, { user_id := -3 })].map
        (Prod.fst (α := Int) (β := RoomSession))).Nodup ∧
    load_sessions_from_file (.parsed (save_sessions_to_file
        [(42, sampleSession), (-3, { user_id := -3 })])) =
      .ok [(42, sampleSession), (-3, { user_id := -3 })] :=
  ⟨by decide, C7_save_load_roundtrip [(42, sampleSession), (-3, { user_id := -3 })] (by decide)⟩

/-- C8 counterexample: a durable store holding the syntactically valid but
corrupt JSON document `[]` makes `load_sessions_from_file` raise an
uncaught `AttributeError` (at `.items()`) instead of returning an empty
mapping — only `FileNotFoundError` and `json.JSONDecodeError` are caught. -/
theorem C8_counterexample_corrupt_but_parsable_raises :
    load_sessions_from_file (.parsed (.pyList [])) = .error .attributeError := rfl

/-- C8 (amended): on a missing file, and on contents that fail JSON
decoding, the startup load leaves the session mapping empty and raises
nothing; but storage holding valid JSON of the wrong shape raises an
uncaught exception out of the loader. -/
theorem C8_amended_missing_or_undecodable_loads_empty :
    load_sessions_from_file .missing = .ok [] ∧
    load_sessions_from_file .unparsable = .ok [] :=
  ⟨rfl, rfl⟩

theorem setField_content_keeps_is_complete (base base' : RoomSession) (k : String) (v : PyVal)
    (hk : k = "description" ∨ k = "buggy_snippet" ∨ k = "correct_snippet")
    (h : setField base k v = .ok base') : base'.is_complete = base.is_complete := by
  rcases hk with hk | hk | hk <;> subst hk <;> cases v <;> simp [setField] at h <;>
    rw [← h]

theorem applyKwargs_content_keeps_is_complete (base : RoomSession)
    (d : List (String × PyVal)) (s : RoomSession)
    (hk : ∀ kv ∈ d, kv.1 = "description" ∨ kv.1 = "buggy_snippet" ∨ kv.1 = "correct_snippet")
    (h : applyKwargs base d = .ok s) : s.is_complete = base.is_complete := by
  induction d generalizing base with
  | nil =>
    simp only [applyKwargs] at h
    injection h with he
    rw [← he]
  | cons kv rest ih =>
    obtain ⟨k, v⟩ := kv
    rw [applyKwargs] at h
    rcases hset : setField base k v with e | base'
    · simp only [hset] at h
      exact Except.noConfusion h
    · simp only [hset] at h
      rw [ih base' (fun q hq => hk q (List.mem_cons_of_mem _ hq)) h]
      exact setField_content_keeps_is_complete base base' k v
        (hk (k, v) (List.mem_cons_self _ _)) hset

theorem hint_task_raised_none (user_id : Int) (hintResp : Option String)
    (sessions store : SessMap) (s : RoomSession)
    (hget : dictGet sessions user_id = some s) :
    (hint_task user_id hintResp sessions store).raised = none := by
  simp only [hint_task.eq_def, hget]
  rcases hintResp with - | t
  · rfl
  · by_cases ht : t = "" <;> simp [ht]

theorem submit_no_attributeError (user_id : Int) (text : String)
    (genResp : Option (List (String × PyVal))) (sessions store : SessMap) (s : RoomSession)
    (hget : dictGet sessions user_id = some s)
    (h : (code_submission_task user_id text genResp sessions store).raised =
      some PyErr.attributeError) : False := by
  simp only [code_submission_task.eq_def, hget, cleanup_session] at h
  by_cases hcmp : normalize_code text = normalize_code s.correct_snippet
  · simp only [if_pos hcmp] at h
    by_cases hvic : s.room_number + 1 > 5
    · simp only [if_pos hvic] at h
      exact Option.noConfusion h
    · simp only [if_neg hvic] at h
      rcases genResp with - | d
      · exact Option.noConfusion h
      · by_cases hkeys : hasAllRoomKeys d
        · simp only [hkeys, if_true] at h
          rcases hrc : roomContentOf d with e | content <;> simp only [hrc] at h
          · injection h with he
            have hte := roomContentOf_error d e hrc
            rw [hte] at he
            exact PyErr.noConfusion he
          · exact Option.noConfusion h
        · simp only [hkeys, Bool.false_eq_true, if_false] at h
          exact Option.noConfusion h
  · simp only [if_neg hcmp] at h
    exact Option.noConfusion h

/-- C2 counterexample: with user 42 holding an active session and not
busy, the leave-game event performs the Terminate state-machine operation
(the session mapping is emptied) while the busy flag is false — the router
never marks the user busy for this dispatched operation, contradicting the
claim that every dispatched operation runs under the busy mark. -/
theorem C2_counterexample_terminate_runs_unguarded :
    (message_router 42 "🚪 ترک بازی" none none false
        [(42, sampleSession)] [(42, sampleSession)]).ops = [(OpKind.terminate, false)] ∧
    (message_router 42 "🚪 ترک بازی" none none false
        [(42, sampleSession)] [(42, sampleSession)]).sessions = [] ∧
    ¬ (∀ kb ∈ (message_router 42 "🚪 ترک بازی" none none false
        [(42, sampleSession)] [(42, sampleSession)]).ops, kb.2 = true) :=
  ⟨rfl, rfl, by decide⟩

/-- C2 (amended): a busy user's event is rejected with the still-processing
notice and performs no state-machine operation and no state change; for a
non-busy user the router's busy flag is false again after every invocation
— also when the dispatched task raised — and every gateway-calling
operation (StartSession, RequestHint, SubmitSolution) runs with the busy
flag set; the Terminate and Inspect operations, however, run inline
without marking the user busy. -/
theorem C2_amended_busy_gate :
    ∀ (user_id : Int) (text : String) (genResp : Option (List (String × PyVal)))
      (hintResp : Option String) (sessions store : SessMap),
      ((message_router user_id text genResp hintResp true sessions store).replies =
          [Reply.stillProcessing] ∧
        (message_router user_id text genResp hintResp true sessions store).ops = [] ∧
        (message_router user_id text genResp hintResp true sessions store).sessions =
          sessions ∧
        (message_router user_id text genResp hintResp true sessions store).store = store ∧
        (message_router user_id text genResp hintResp true sessions store).busy = true) ∧
      ((message_router user_id text genResp hintResp false sessions store).busy = false ∧
        ∀ kb ∈ (message_router user_id text genResp hintResp false sessions store).ops,
          (kb.1 = OpKind.startSession ∨ kb.1 = OpKind.requestHint ∨
            kb.1 = OpKind.submitSolution) → kb.2 = true) := by
  intro user_id text genResp hintResp sessions store
  refine ⟨⟨rfl, rfl, rfl, rfl, rfl⟩, ?_, ?_⟩
  · simp only [message_router, runGuarded]
    repeat' split
    all_goals first | rfl | simp_all
  · simp only [message_router, runGuarded]
    repeat' split
    all_goals simp_all

/-- C2 witness: a free-text submission from a non-busy user with an active
session is dispatched with the busy flag set. -/
theorem C2_witness :
    ((OpKind.submitSolution, true) : OpKind × Bool).2 = true :=
  (C2_amended_busy_gate 42 "x=2" none none [(42, sampleSession)] []).2.2
    (OpKind.submitSolution, true) (by decide) (Or.inr (Or.inr rfl))

/-- C5: across any single router step from a reachable state (no stored
session is completed, keys distinct), a surviving session's stage index
never decreases, and it changes only when the step was that user's correct
free-text submission, in which case it increases by exactly 1 with the
attempt count reset; moreover a correct submission whose session survives
always yields stage + 1 and zero attempts. -/
theorem C5_stage_monotone_and_exact_increment :
    (∀ (user_id : Int) (text : String) (genResp : Option (List (String × PyVal)))
        (hintResp : Option String) (busy : Bool) (sessions store : SessMap)
        (u : Int) (s s' : RoomSession),
      (∀ p ∈ sessions, p.2.is_complete = false) →
      (sessions.map Prod.fst).Nodup →
      dictGet sessions u = some s →
      dictGet (message_router user_id text genResp hintResp busy sessions store).sessions u =
        some s' →
      s.room_number ≤ s'.room_number ∧
        (s'.room_number = s.room_number ∨
          (u = user_id ∧ s'.room_number = s.room_number + 1 ∧ s'.attempts = 0 ∧
            normalize_code text = normalize_code s.correct_snippet))) ∧
    (∀ (user_id : Int) (text : String) (genResp : Option (List (String × PyVal)))
        (sessions store : SessMap) (s s' : RoomSession),
      (sessions.map Prod.fst).Nodup →
      dictGet sessions user_id = some s →
      normalize_code text = normalize_code s.correct_snippet →
      dictGet (code_submission_task user_id text genResp sessions store).sessions user_id =
        some s' →
      s'.room_number = s.room_number + 1 ∧ s'.attempts = 0) := by
  constructor
  · intro user_id text genResp hintResp busy sessions store u s s' hinv hnd hget h'
    have hcomp : ∀ t : RoomSession, dictGet sessions user_id = some t →
        t.is_complete = false :=
      fun t ht => hinv (user_id, t) (dictGet_mem _ _ _ ht)
    cases busy with
    | true =>
      simp [message_router] at h'
      rw [hget] at h'
      injection h' with he
      subst he
      exact ⟨le_refl _, Or.inl rfl⟩
    | false =>
      by_cases h1 : text = "🎮 ورود به قلعه"
      · cases hgetuid : dictGet sessions user_id with
        | some t =>
          simp [message_router, h1, hgetuid, hcomp t hgetuid] at h'
          rw [hget] at h'
          injection h' with he
          subst he
          exact ⟨le_refl _, Or.inl rfl⟩
        | none =>
          by_cases hu : u = user_id
          · subst hu
            rw [hget] at hgetuid
            exact Option.noConfusion hgetuid
          · simp [message_router, h1, hgetuid, runGuarded] at h'
            rw [enter_castle_dictGet_ne user_id genResp sessions store u hu, hget] at h'
            injection h' with he
            subst he
            exact ⟨le_refl _, Or.inl rfl⟩
      · by_cases h2 : text = "💡 دریافت راهنمایی"
        · have hsame : dictGet (message_router user_id text genResp hintResp false sessions
              store).sessions u = dictGet sessions u := by
            cases hgetuid : dictGet sessions user_id with
            | some t =>
              simp [message_router, h1, h2, hgetuid, hcomp t hgetuid, runGuarded,
                (hint_task_sessions user_id hintResp sessions store).1]
            | none => simp [message_router, h1, h2, hgetuid]
          rw [hsame, hget] at h'
          injection h' with he
          subst he
          exact ⟨le_refl _, Or.inl rfl⟩
        · by_cases h3 : text = "🚪 ترک بازی"
          · cases hgetuid : dictGet sessions user_id with
            | some t =>
              simp [message_router, h1, h2, h3, hgetuid, cleanup_session] at h'
              by_cases hu : u = user_id
              · subst hu
                rw [dictGet_dictPop_self sessions u hnd] at h'
                exact Option.noConfusion h'
              · rw [dictGet_dictPop_ne sessions user_id u hu, hget] at h'
                injection h' with he
                subst he
                exact ⟨le_refl _, Or.inl rfl⟩
            | none =>
              simp [message_router, h1, h2, h3, hgetuid] at h'
              rw [hget] at h'
              injection h' with he
              subst he
              exact ⟨le_refl _, Or.inl rfl⟩
          · by_cases h4 : text = "📊 پیشرفت من"
            · have hsame : dictGet (message_router user_id text genResp hintResp false sessions
                  store).sessions u = dictGet sessions u := by
                cases hgetuid : dictGet sessions user_id with
                | some t => simp [message_router, h1, h2, h3, h4, hgetuid, hcomp t hgetuid]
                | none => simp [message_router, h1, h2, h3, h4, hgetuid]
              rw [hsame, hget] at h'
              injection h' with he
              subst he
              exact ⟨le_refl _, Or.inl rfl⟩
            · cases hgetuid : dictGet sessions user_id with
              | none =>
                simp [message_router, h1, h2, h3, h4, hgetuid] at h'
                rw [hget] at h'
                injection h' with he
                subst he
                exact ⟨le_refl _, Or.inl rfl⟩
              | some t =>
                simp [message_router, h1, h2, h3, h4, hgetuid, hcomp t hgetuid,
                  runGuarded] at h'
                rw [submit_dictGet_after user_id text genResp sessions store u hnd] at h'
                by_cases hu : u = user_id
                · subst hu
                  rw [hget] at hgetuid
                  injection hgetuid with hst
                  subst hst
                  rw [if_pos rfl] at h'
                  simp only [hget] at h'
                  by_cases hcmp : normalize_code text = normalize_code s.correct_snippet
                  · simp only [if_pos hcmp] at h'
                    by_cases hvic : s.room_number + 1 > 5
                    · rw [if_pos hvic] at h'
                      exact Option.noConfusion h'
                    · rw [if_neg hvic] at h'
                      rcases genResp with - | d
                      · exact Option.noConfusion h'
                      · by_cases hkeys : hasAllRoomKeys d
                        · simp only [hkeys, if_true] at h'
                          rcases hrc : roomContentOf d with e | content <;>
                            simp only [hrc] at h' <;>
                            (injection h' with he; rw [← he];
                              refine ⟨?_, Or.inr ⟨rfl, rfl, rfl, hcmp⟩⟩;
                              show s.room_number ≤ s.room_number + 1;
                              omega)
                        · simp only [hkeys, Bool.false_eq_true, if_false] at h'
                          exact Option.noConfusion h'
                  · simp only [if_neg hcmp] at h'
                    injection h' with he
                    rw [← he]
                    exact ⟨le_refl _, Or.inl rfl⟩
                · rw [if_neg hu, hget] at h'
                  injection h' with he
                  subst he
                  exact ⟨le_refl _, Or.inl rfl⟩
  · intro user_id text genResp sessions store s s' hnd hget hcmp h'
    rw [submit_dictGet_after user_id text genResp sessions store user_id hnd,
      if_pos rfl] at h'
    simp only [hget, if_pos hcmp] at h'
    by_cases hvic : s.room_number + 1 > 5
    · rw [if_pos hvic] at h'
      exact Option.noConfusion h'
    · rw [if_neg hvic] at h'
      rcases genResp with - | d
      · exact Option.noConfusion h'
      · by_cases hkeys : hasAllRoomKeys d
        · simp only [hkeys, if_true] at h'
          rcases hrc : roomContentOf d with e | content <;> simp only [hrc] at h' <;>
            (injection h' with he; rw [← he]; exact ⟨rfl, rfl⟩)
        · simp only [hkeys, Bool.false_eq_true, if_false] at h'
          exact Option.noConfusion h'

/-- C5 witness: the monotonicity conclusion instantiated at a progress
inspection for user 42, whose session is unchanged. -/
theorem C5_witness :
    sampleSession.room_number ≤ sampleSession.room_number ∧
      (sampleSession.room_number = sampleSession.room_number ∨
        ((42 : Int) = 42 ∧ sampleSession.room_number = sampleSession.room_number + 1 ∧
          sampleSession.attempts = 0 ∧
          normalize_code "📊 پیشرفت من" = normalize_code sampleSession.correct_snippet)) :=
  C5_stage_monotone_and_exact_increment.1 42 "📊 پیشرفت من" none none false
    [(42, sampleSession)] [] 42 sampleSession sampleSession (by decide) (by decide) rfl rfl

/-- C9 counterexample: the generator response may carry an extra
`is_complete` key in addition to the three expected content keys; the
validity check only requires the three keys to be present, and
`RoomSession(user_id=user_id, **response)` then creates and stores a
session with `is_complete = true`. -/
theorem C9_counterexample_extra_key_sets_is_complete :
    dictGet (enter_castle_task 7 (some [("description", .pyStr "d"),
        ("buggy_snippet", .pyStr "b"), ("correct_snippet", .pyStr "c"),
        ("is_complete", .pyBool true)]) [] []).sessions 7 =
      some { user_id := 7
             room_number := 1
             description := "d"
             buggy_snippet := "b"
             correct_snippet := "c"
             attempts := 0
             is_complete := true } := rfl

/-- C9 (amended): a session built by StartSession from a response whose
keys are only the three content keys has `is_complete = false`, and
SubmitSolution never changes a surviving session's `is_complete` flag —
completion is otherwise represented solely by deleting the session; a
response smuggling an extra `is_complete` key, however, does create a
completed session. -/
theorem C9_amended_is_complete_stays_false :
    (∀ (uid : Int) (d : List (String × PyVal)) (s : RoomSession),
      (∀ kv ∈ d, kv.1 = "description" ∨ kv.1 = "buggy_snippet" ∨ kv.1 = "correct_snippet") →
      mkRoomSessionKw uid d = .ok s → s.is_complete = false) ∧
    (∀ (user_id : Int) (text : String) (genResp : Option (List (String × PyVal)))
        (sessions store : SessMap) (u : Int) (s s' : RoomSession),
      (sessions.map Prod.fst).Nodup →
      dictGet sessions u = some s →
      dictGet (code_submission_task user_id text genResp sessions store).sessions u =
        some s' →
      s'.is_complete = s.is_complete) := by
  constructor
  · intro uid d s hk hok
    rw [mkRoomSessionKw] at hok
    split_ifs at hok
    exact applyKwargs_content_keeps_is_complete { user_id := uid } d s hk hok
  · intro user_id text genResp sessions store u s s' hnd hget h'
    rw [submit_dictGet_after user_id text genResp sessions store u hnd] at h'
    by_cases hu : u = user_id
    · subst hu
      rw [if_pos rfl] at h'
      simp only [hget] at h'
      by_cases hcmp : normalize_code text = normalize_code s.correct_snippet
      · simp only [if_pos hcmp] at h'
        by_cases hvic : s.room_number + 1 > 5
        · rw [if_pos hvic] at h'
          exact Option.noConfusion h'
        · rw [if_neg hvic] at h'
          rcases genResp with - | d
          · exact Option.noConfusion h'
          · by_cases hkeys : hasAllRoomKeys d
            · simp only [hkeys, if_true] at h'
              rcases hrc : roomContentOf d with e | content <;> simp only [hrc] at h' <;>
                (injection h' with he; rw [← he])
            · simp only [hkeys, Bool.false_eq_true, if_false] at h'
              exact Option.noConfusion h'
      · simp only [if_neg hcmp] at h'
        injection h' with he
        rw [← he]
    · rw [if_neg hu, hget] at h'
      injection h' with he
      rw [← he]

/-- C9 witness: a response with exactly the three content keys yields a
session with `is_complete = false`. -/
theorem C9_witness :
    ({ user_id := 7
       room_number := 1
       description := "d"
       buggy_snippet := "b"
       correct_snippet := "c"
       attempts := 0
       is_complete := false } : RoomSession).is_complete = false :=
  C9_amended_is_complete_stays_false.1 7
    [("description", .pyStr "d"), ("buggy_snippet", .pyStr "b"), ("correct_snippet", .pyStr "c")]
    { user_id := 7
      room_number := 1
      description := "d"
      buggy_snippet := "b"
      correct_snippet := "c"
      attempts := 0
      is_complete := false }
    (by decide) rfl

/-- C10: under the router's dispatch guards, the unguarded session lookups
inside the submission and hint handlers never see an absent session, so no
router invocation ever raises `AttributeError` (the error of a field
access on `None`): every escaped exception is a `TypeError` from the
dataclass construction path. -/
theorem C10_router_never_raises_attributeError :
    ∀ (user_id : Int) (text : String) (genResp : Option (List (String × PyVal)))
      (hintResp : Option String) (busy : Bool) (sessions store : SessMap),
      ((message_router user_id text genResp hintResp busy sessions store).raised ==
        some PyErr.attributeError) = false := by
  intro user_id text genResp hintResp busy sessions store
  rw [beq_eq_false_iff_ne]
  intro hcontra
  cases busy with
  | true => simp [message_router] at hcontra
  | false =>
    simp only [message_router, Bool.false_eq_true, if_false] at hcontra
    by_cases h1 : text = "🎮 ورود به قلعه"
    · simp only [if_pos h1] at hcontra
      cases hget : dictGet sessions user_id with
      | none =>
        simp only [hget, runGuarded] at hcontra
        exact enter_castle_no_attributeError user_id genResp sessions store hcontra
      | some t =>
        simp only [hget] at hcontra
        by_cases hc : t.is_complete
        · simp only [hc, if_true, runGuarded] at hcontra
          exact enter_castle_no_attributeError user_id genResp sessions store hcontra
        · simp only [hc, Bool.false_eq_true, if_false] at hcontra
          exact Option.noConfusion hcontra
    · simp only [if_neg h1] at hcontra
      by_cases h2 : text = "💡 دریافت راهنمایی"
      · simp only [if_pos h2] at hcontra
        cases hget : dictGet sessions user_id with
        | none =>
          simp only [hget] at hcontra
          exact Option.noConfusion hcontra
        | some t =>
          simp only [hget] at hcontra
          by_cases hc : t.is_complete
          · simp only [hc, if_true] at hcontra
            exact Option.noConfusion hcontra
          · simp only [hc, Bool.false_eq_true, if_false, runGuarded] at hcontra
            rw [hint_task_raised_none user_id hintResp sessions store t hget] at hcontra
            exact Option.noConfusion hcontra
      · simp only [if_neg h2] at hcontra
        by_cases h3 : text = "🚪 ترک بازی"
        · simp only [if_pos h3] at hcontra
          cases hget : dictGet sessions user_id with
          | none =>
            simp only [hget] at hcontra
            exact Option.noConfusion hcontra
          | some t =>
            simp only [hget] at hcontra
            exact Option.noConfusion hcontra
        · simp only [if_neg h3] at hcontra
          by_cases h4 : text = "📊 پیشرفت من"
          · simp only [if_pos h4] at hcontra
            cases hget : dictGet sessions user_id with
            | none =>
              simp only [hget] at hcontra
              exact Option.noConfusion hcontra
            | some t =>
              simp only [hget] at hcontra
              by_cases hc : t.is_complete <;>
                simp only [hc, if_true, Bool.false_eq_true, if_false] at hcontra <;>
                exact Option.noConfusion hcontra
          · simp only [if_neg h4] at hcontra
            cases hget : dictGet sessions user_id with
            | none =>
              simp only [hget] at hcontra
              exact Option.noConfusion hcontra
            | some t =>
              simp only [hget] at hcontra
              by_cases hc : t.is_complete
              · simp only [hc, if_true] at hcontra
                exact Option.noConfusion hcontra
              · simp only [hc, Bool.false_eq_true, if_false, runGuarded] at hcontra
                exact submit_no_attributeError user_id text genResp sessions store t
                  hget hcontra

end CastleOfBugs
